import Mathlib

/-!
# Verification of the Channel Health Monitor (`tve_checker.py`)

A shallow embedding of the core of `tve_checker.py` from the
`channels-dvr-tools` repository, together with theorems settling the
frozen claims about it.

Modelling conventions:
* Python dicts are ordered association lists with unique keys
  (`dictGet?`, `dictSet`, `dictDel`); `dictSet` updates an existing key
  in place and appends a fresh key at the end, exactly as CPython does.
* Channel numbers come from the DVR's JSON channel listing as strings,
  so `str(ch_number)` is the identity and ledger keys are the channel
  numbers themselves.
* Timestamps are the ISO-8601 strings produced by
  `datetime.now().isoformat()`; the current time is passed in as an
  explicit `current_time` argument.  Where the code parses a stored
  timestamp back (`datetime.fromisoformat`), the parser is passed in as
  a function argument `fromIso` and the current instant as an integer
  number of elapsed seconds, which is the granularity the
  duration-formatting code observes.
* The JSON file contents are modelled at the JSON-value level
  (`JValue`); `json.dump`/`json.load` round-trip such values exactly.
* Network and filesystem effects are passed in as explicit data
  (`HttpOutcome`, `LedgerFileState`, an optional I/O error for writes);
  printed output is returned as a list of lines.
* Python `for` loops over maps are written as structural recursion over
  the corresponding association list, threading the accumulator exactly
  as the loop body mutates it.
-/

namespace TveChecker

/-- Python dict lookup `m[k]` / `m.get(k)`: first (unique) matching key. -/
def dictGet? {α : Type} : List (String × α) → String → Option α
  | [], _ => none
  | p :: rest, k => if p.1 = k then some p.2 else dictGet? rest k

/-- Python dict assignment `m[k] = v`: update in place if the key is
present, otherwise append the new binding at the end. -/
def dictSet {α : Type} : List (String × α) → String → α → List (String × α)
  | [], k, v => [(k, v)]
  | p :: rest, k, v => if p.1 = k then (k, v) :: rest else p :: dictSet rest k v

/-- Python `del m[k]`: remove the binding for `k`.  Dict keys are
unique, so removing every occurrence coincides with `del`. -/
def dictDel {α : Type} : List (String × α) → String → List (String × α)
  | [], _ => []
  | p :: rest, k => if p.1 = k then dictDel rest k else p :: dictDel rest k

/-- The keys of a dict, in order. -/
def dictKeys {α : Type} (m : List (String × α)) : List String :=
  m.map Prod.fst

/-- One record of the failure ledger (`self.failure_log[ch_key]`). -/
structure FailureRecord where
  name : String
  first_failed : String
  last_checked : String
  error : Option String
deriving DecidableEq

/-- One entry of the `failed_channels` map built by the scan loop:
`{'name': ch_name, 'error': error}`. -/
structure FailedData where
  name : String
  error : Option String
deriving DecidableEq

/-- The in-memory failure ledger `self.failure_log`. -/
abbrev FailureLog := List (String × FailureRecord)

/-- First loop of `update_failure_log`: add each new failure with
`first_failed = last_checked = current_time`, and for a continuing
failure overwrite only `last_checked` and `error`. -/
def updateFailedChannels : FailureLog → String → List (String × FailedData) → FailureLog
  | log, _, [] => log
  | log, now, ch :: rest =>
      updateFailedChannels
        (match dictGet? log ch.1 with
         | none =>
             dictSet log ch.1
               { name := ch.2.name, first_failed := now,
                 last_checked := now, error := ch.2.error }
         | some r =>
             dictSet log ch.1 { r with last_checked := now, error := ch.2.error })
        now rest

/-- Second loop of `update_failure_log`: delete every channel that is
now passing. -/
def removePassedChannels : FailureLog → List (String × String) → FailureLog
  | log, [] => log
  | log, ch :: rest => removePassedChannels (dictDel log ch.1) rest

/-- Model of `ChannelsDVRServer.update_failure_log` (pure part): add/update every
failed channel, then delete every passed channel. -/
def update_failure_log (log : FailureLog) (current_time : String)
    (failed_channels : List (String × FailedData))
    (passed_channels : List (String × String)) : FailureLog :=
  removePassedChannels (updateFailedChannels log current_time failed_channels) passed_channels

lemma dictGet?_set_self {α : Type} (m : List (String × α)) (k : String) (v : α) :
    dictGet? (dictSet m k v) k = some v := by
  induction m with
  | nil => simp [dictSet, dictGet?]
  | cons p rest ih =>
      by_cases h : p.1 = k
      · simp [dictSet, h, dictGet?]
      · simp [dictSet, h, dictGet?, ih]

lemma dictGet?_set_ne {α : Type} (m : List (String × α)) (k' k : String) (v : α)
    (h : k' ≠ k) : dictGet? (dictSet m k' v) k = dictGet? m k := by
  induction m with
  | nil => simp [dictSet, dictGet?, h]
  | cons p rest ih =>
      by_cases hp : p.1 = k'
      · simp [dictSet, hp, dictGet?, h]
      · simp [dictSet, hp, dictGet?, ih]

lemma dictGet?_del_self {α : Type} (m : List (String × α)) (k : String) :
    dictGet? (dictDel m k) k = none := by
  induction m with
  | nil => simp [dictDel, dictGet?]
  | cons p rest ih =>
      by_cases h : p.1 = k
      · simpa [dictDel, h] using ih
      · simp [dictDel, h, dictGet?, ih]

lemma dictGet?_del_ne {α : Type} (m : List (String × α)) (k' k : String)
    (h : k' ≠ k) : dictGet? (dictDel m k') k = dictGet? m k := by
  induction m with
  | nil => simp [dictDel]
  | cons p rest ih =>
      by_cases hp : p.1 = k'
      · have hpk : ¬p.1 = k := fun hh => h (by rw [← hp, hh])
        simp [dictDel, hp, dictGet?, hpk, h, ih]
      · by_cases hk : p.1 = k
        · simp [dictDel, hp, hk, dictGet?, Ne.symm h]
        · simp [dictDel, hp, hk, dictGet?, ih]

/-- A key not named by any failed entry keeps its binding through the
add/update loop. -/
lemma updateFailedChannels_get_notMem (failed : List (String × FailedData))
    (log : FailureLog) (now k : String)
    (h : k ∉ failed.map Prod.fst) :
    dictGet? (updateFailedChannels log now failed) k = dictGet? log k := by
  induction failed generalizing log with
  | nil => simp [updateFailedChannels]
  | cons ch rest ih =>
      simp only [List.map_cons, List.mem_cons, not_or] at h
      cases hc : dictGet? log ch.1 with
      | none =>
          simp only [updateFailedChannels, hc]
          rw [ih _ h.2, dictGet?_set_ne _ _ _ _ (Ne.symm h.1)]
      | some r =>
          simp only [updateFailedChannels, hc]
          rw [ih _ h.2, dictGet?_set_ne _ _ _ _ (Ne.symm h.1)]

/-- The binding produced by the add/update loop for a failed channel:
a fresh record when absent, otherwise only `last_checked` and `error`
change. -/
lemma updateFailedChannels_get_mem (failed : List (String × FailedData))
    (log : FailureLog) (now k : String) (d : FailedData)
    (hnd : (failed.map Prod.fst).Nodup) (hmem : (k, d) ∈ failed) :
    dictGet? (updateFailedChannels log now failed) k =
      some (match dictGet? log k with
            | none => { name := d.name, first_failed := now, last_checked := now, error := d.error }
            | some r => { r with last_checked := now, error := d.error }) := by
  induction failed generalizing log with
  | nil => cases hmem
  | cons ch rest ih =>
      simp only [List.map_cons, List.nodup_cons] at hnd
      rcases List.mem_cons.mp hmem with hhead | htail
      · have hch : ch.1 = k := by rw [← hhead]
        have hrest : k ∉ rest.map Prod.fst := hch ▸ hnd.1
        have hd : ch.2 = d := by rw [← hhead]
        cases hlog : dictGet? log k with
        | none =>
            simp only [updateFailedChannels, hch, hd, hlog]
            rw [updateFailedChannels_get_notMem rest _ now k hrest, dictGet?_set_self]
        | some r =>
            simp only [updateFailedChannels, hch, hd, hlog]
            rw [updateFailedChannels_get_notMem rest _ now k hrest, dictGet?_set_self]
      · have hne : ch.1 ≠ k := by
          intro hce
          exact hnd.1 (hce ▸ List.mem_map.mpr ⟨(k, d), htail, rfl⟩)
        cases hc : dictGet? log ch.1 with
        | none =>
            simp only [updateFailedChannels, hc]
            rw [ih _ hnd.2 htail, dictGet?_set_ne _ _ _ _ hne]
        | some r =>
            simp only [updateFailedChannels, hc]
            rw [ih _ hnd.2 htail, dictGet?_set_ne _ _ _ _ hne]

/-- A key not named by any passed entry keeps its binding through the
removal loop. -/
lemma removePassedChannels_get_notMem (passed : List (String × String))
    (log : FailureLog) (k : String) (h : k ∉ passed.map Prod.fst) :
    dictGet? (removePassedChannels log passed) k = dictGet? log k := by
  induction passed generalizing log with
  | nil => simp [removePassedChannels]
  | cons ch rest ih =>
      simp only [List.map_cons, List.mem_cons, not_or] at h
      simp only [removePassedChannels]
      rw [ih _ h.2, dictGet?_del_ne _ _ _ (Ne.symm h.1)]

/-- A key named by some passed entry is absent after the removal loop. -/
lemma removePassedChannels_get_mem (passed : List (String × String))
    (log : FailureLog) (k : String) (h : k ∈ passed.map Prod.fst) :
    dictGet? (removePassedChannels log passed) k = none := by
  induction passed generalizing log with
  | nil => cases h
  | cons ch rest ih =>
      simp only [List.map_cons, List.mem_cons] at h
      by_cases hrest : k ∈ rest.map Prod.fst
      · simpa only [removePassedChannels] using ih _ hrest
      · have hch : ch.1 = k := by tauto
        simp only [removePassedChannels]
        rw [removePassedChannels_get_notMem rest _ k hrest, hch, dictGet?_del_self]


/-- JSON values, the contents of the ledger file.  `json.dump` followed
by `json.load` reproduces such a value exactly, so the file is modelled
at the value level. -/
inductive JValue where
  | null
  | str (s : String)
  | num (n : Int)
  | arr (elems : List JValue)
  | obj (fields : List (String × JValue))

/-- Serialization of an optional error string (`None` becomes JSON `null`). -/
def optStrToJson : Option String → JValue
  | none => .null
  | some s => .str s

/-- A ledger record as it appears in `tve_failures.json`. -/
def recordToJson (r : FailureRecord) : JValue :=
  .obj [("name", .str r.name), ("first_failed", .str r.first_failed),
        ("last_checked", .str r.last_checked), ("error", optStrToJson r.error)]

/-- The whole ledger as written by `json.dump(self.failure_log, f)`. -/
def logToJson (log : FailureLog) : JValue :=
  .obj (log.map fun p => (p.1, recordToJson p.2))

/-- Typed view of a loaded JSON record; `None` when the value does not
have the ledger-record shape. -/
def jsonToRecord : JValue → Option FailureRecord
  | .obj [("name", .str n), ("first_failed", .str ff),
          ("last_checked", .str lc), ("error", .null)] =>
      some { name := n, first_failed := ff, last_checked := lc, error := none }
  | .obj [("name", .str n), ("first_failed", .str ff),
          ("last_checked", .str lc), ("error", .str e)] =>
      some { name := n, first_failed := ff, last_checked := lc, error := some e }
  | _ => none

/-- Typed view of a loaded JSON object's field list as a ledger. -/
def jsonFieldsToLog : List (String × JValue) → Option FailureLog
  | [] => some []
  | p :: rest =>
      match jsonToRecord p.2, jsonFieldsToLog rest with
      | some r, some l => some ((p.1, r) :: l)
      | _, _ => none

/-- Typed view of a loaded JSON value as a ledger. -/
def jsonToLog : JValue → Option FailureLog
  | .obj fields => jsonFieldsToLog fields
  | _ => none

/-- The state the ledger file can be in when the process starts. -/
inductive LedgerFileState where
  | absent
  | unreadable
  | parsed (j : JValue)

/-- Model of `ChannelsDVRServer._load_failure_log`: missing file and
`json.JSONDecodeError`/`IOError` both fall back to the empty dict; the
second component is the lines printed while loading (the source prints
nothing on this path). -/
def load_failure_log : LedgerFileState → JValue × List String
  | .absent => (.obj [], [])
  | .unreadable => (.obj [], [])
  | .parsed j => (j, [])

/-- Model of `ChannelsDVRServer._save_failure_log`: on success the file holds the
serialized ledger; on `IOError` nothing is written and a warning line is
printed. -/
def save_failure_log (log : FailureLog) (ioError : Option String) :
    Option JValue × List String :=
  match ioError with
  | none => (some (logToJson log), [])
  | some e => (none, ["Warning: Could not save failure log: " ++ e])

/-- Model of `ChannelsDVRServer.update_failure_log` including its final
`self._save_failure_log()` call: returns the new in-memory ledger, the
file contents written (if the write succeeded) and the printed lines. -/
def update_failure_log_io (log : FailureLog) (current_time : String)
    (failed_channels : List (String × FailedData))
    (passed_channels : List (String × String)) (ioError : Option String) :
    FailureLog × Option JValue × List String :=
  let newLog := update_failure_log log current_time failed_channels passed_channels
  (newLog, (save_failure_log newLog ioError).1, (save_failure_log newLog ioError).2)

lemma jsonToRecord_recordToJson (r : FailureRecord) :
    jsonToRecord (recordToJson r) = some r := by
  cases r with
  | mk n ff lc e => cases e <;> rfl

lemma jsonFieldsToLog_map (log : FailureLog) :
    jsonFieldsToLog (log.map fun p => (p.1, recordToJson p.2)) = some log := by
  induction log with
  | nil => rfl
  | cons p rest ih =>
      simp [jsonFieldsToLog, jsonToRecord_recordToJson, ih]

/-- Claim C1: `update_failure_log` inserts a fresh record (with
`first_failed = last_checked = current_time` and the failed entry's name
and error) for every newly failing channel, preserves `first_failed`
(and the name) while refreshing `last_checked` and `error` for every
continuing failure, deletes the record of every passing channel, and
then persists the whole updated map. -/
theorem C1_update_semantics (log : FailureLog) (current_time : String)
    (failed : List (String × FailedData)) (passed : List (String × String))
    (hnd : (failed.map Prod.fst).Nodup)
    (hdisj : ∀ k ∈ failed.map Prod.fst, k ∉ passed.map Prod.fst) :
    (∀ k d, (k, d) ∈ failed → dictGet? log k = none →
        dictGet? (update_failure_log log current_time failed passed) k =
          some { name := d.name, first_failed := current_time,
                 last_checked := current_time, error := d.error }) ∧
    (∀ k d r, (k, d) ∈ failed → dictGet? log k = some r →
        dictGet? (update_failure_log log current_time failed passed) k =
          some { r with last_checked := current_time, error := d.error }) ∧
    (∀ k ∈ passed.map Prod.fst,
        dictGet? (update_failure_log log current_time failed passed) k = none) ∧
    update_failure_log_io log current_time failed passed none =
      (update_failure_log log current_time failed passed,
       some (logToJson (update_failure_log log current_time failed passed)), []) := by
  refine ⟨?_, ?_, ?_, rfl⟩
  · intro k d hmem hlog
    have hkf : k ∈ failed.map Prod.fst := List.mem_map.mpr ⟨(k, d), hmem, rfl⟩
    rw [update_failure_log,
        removePassedChannels_get_notMem _ _ _ (hdisj k hkf),
        updateFailedChannels_get_mem failed log current_time k d hnd hmem, hlog]
  · intro k d r hmem hlog
    have hkf : k ∈ failed.map Prod.fst := List.mem_map.mpr ⟨(k, d), hmem, rfl⟩
    rw [update_failure_log,
        removePassedChannels_get_notMem _ _ _ (hdisj k hkf),
        updateFailedChannels_get_mem failed log current_time k d hnd hmem, hlog]
  · intro k hk
    exact removePassedChannels_get_mem passed _ k hk

/-- Witness for C1 at a concrete ledger and result maps. -/
theorem C1_witness :
    dictGet? (update_failure_log
        [("1", ⟨"Alpha", "T0", "T1", some "HTTP 503"⟩),
         ("3", ⟨"Gamma", "T0", "T1", some "HTTP 500"⟩)] "T2"
        [("1", ⟨"Alpha", some "timeout"⟩), ("2", ⟨"Beta", some "HTTP 404"⟩)]
        [("3", "Gamma")]) "2" =
      some ⟨"Beta", "T2", "T2", some "HTTP 404"⟩ ∧
    dictGet? (update_failure_log
        [("1", ⟨"Alpha", "T0", "T1", some "HTTP 503"⟩),
         ("3", ⟨"Gamma", "T0", "T1", some "HTTP 500"⟩)] "T2"
        [("1", ⟨"Alpha", some "timeout"⟩), ("2", ⟨"Beta", some "HTTP 404"⟩)]
        [("3", "Gamma")]) "1" =
      some ⟨"Alpha", "T0", "T2", some "timeout"⟩ ∧
    dictGet? (update_failure_log
        [("1", ⟨"Alpha", "T0", "T1", some "HTTP 503"⟩),
         ("3", ⟨"Gamma", "T0", "T1", some "HTTP 500"⟩)] "T2"
        [("1", ⟨"Alpha", some "timeout"⟩), ("2", ⟨"Beta", some "HTTP 404"⟩)]
        [("3", "Gamma")]) "3" = none := by
  refine ⟨?_, ?_, ?_⟩
  · exact (C1_update_semantics _ "T2" _ _ (by decide) (by decide)).1
      "2" ⟨"Beta", some "HTTP 404"⟩ (by decide) (by decide)
  · exact (C1_update_semantics _ "T2" _ _ (by decide) (by decide)).2.1
      "1" ⟨"Alpha", some "timeout"⟩ ⟨"Alpha", "T0", "T1", some "HTTP 503"⟩
      (by decide) (by decide)
  · exact (C1_update_semantics _ "T2" _ _ (by decide) (by decide)).2.2.1
      "3" (by decide)

/-- Claim C10: a channel number appearing in neither the failed map nor
the passed map keeps its ledger record entirely unchanged, so stale
entries for channels no longer probed persist across scans. -/
theorem C10_frame (log : FailureLog) (current_time : String)
    (failed : List (String × FailedData)) (passed : List (String × String))
    (k : String) (hf : k ∉ failed.map Prod.fst) (hp : k ∉ passed.map Prod.fst) :
    dictGet? (update_failure_log log current_time failed passed) k = dictGet? log k := by
  rw [update_failure_log, removePassedChannels_get_notMem _ _ _ hp,
      updateFailedChannels_get_notMem _ _ _ _ hf]

/-- Witness for C10: a stale record survives an update that does not
mention its channel. -/
theorem C10_witness :
    dictGet? (update_failure_log [("9", ⟨"Stale", "T0", "T1", some "HTTP 503"⟩)] "T2"
        [("2", ⟨"Beta", some "HTTP 404"⟩)] [("3", "Gamma")]) "9" =
      some ⟨"Stale", "T0", "T1", some "HTTP 503"⟩ := by
  have h := C10_frame [("9", ⟨"Stale", "T0", "T1", some "HTTP 503"⟩)] "T2"
      [("2", ⟨"Beta", some "HTTP 404"⟩)] [("3", "Gamma")] "9" (by decide) (by decide)
  rw [h]
  rfl

/-- Claim C6: saving the ledger and reloading it reproduces an identical
map, with the same keys and field values. -/
theorem C6_round_trip (log : FailureLog) : jsonToLog (logToJson log) = some log := by
  rw [logToJson, jsonToLog]
  exact jsonFieldsToLog_map log

/-- Counterexample to claim C7 as stated: with an unreadable (or absent)
ledger file the load falls back to the empty map but prints no warning
at all, while the claim requires a warning to be surfaced. -/
theorem C7_counterexample :
    load_failure_log LedgerFileState.unreadable = (JValue.obj [], []) := rfl

/-- Claim C7 (amended): the ledger load never raises and returns the
empty map when the file is absent or unparseable, but no warning is
printed on the load path; a warning is printed only when saving fails. -/
theorem C7_load_behavior :
    load_failure_log LedgerFileState.absent = (JValue.obj [], []) ∧
    (∀ fs, (load_failure_log fs).2 = []) ∧
    (∀ (log : FailureLog) (e : String),
      (save_failure_log log (some e)).2 =
        ["Warning: Could not save failure log: " ++ e]) := by
  refine ⟨rfl, ?_, fun log e => rfl⟩
  intro fs
  cases fs <;> rfl

/-- The possible observable outcomes of the streaming GET issued by
`test_video_stream`: a transport-level `requests` exception, or a
response with a status code and the sequence of chunks that
`iter_content` would yield. -/
inductive HttpOutcome where
  | exception (msg : String)
  | response (status_code : Nat) (chunks : List String)

/-- Model of `test_video_stream`: a non-200 status fails with "HTTP <status>";
with a 200 response the first chunk decides (truthy means success
without reading further, empty means no video); a body yielding no
chunk at all means no data; a transport exception fails with its text. -/
def test_video_stream : HttpOutcome → Bool × Option String
  | .exception e => (false, some e)
  | .response status_code chunks =>
      if status_code = 200 then
        match chunks with
        | chunk :: _ =>
            if ¬chunk.isEmpty then (true, none)
            else (false, some "Link valid but no video received")
        | [] => (false, some "No data received")
      else (false, some ("HTTP " ++ toString status_code))

/-- Claim C4: classification of every probe outcome — non-200 status,
success on a truthy first chunk (independent of the rest of the body),
empty first chunk, chunkless body, and transport exception. -/
theorem C4_probe_classification (status_code : Nat) (chunks : List String)
    (chunk : String) (rest : List String) (e : String) :
    (status_code ≠ 200 → test_video_stream (.response status_code chunks) =
        (false, some ("HTTP " ++ toString status_code))) ∧
    (¬chunk.isEmpty → test_video_stream (.response 200 (chunk :: rest)) = (true, none)) ∧
    test_video_stream (.response 200 ("" :: rest)) =
      (false, some "Link valid but no video received") ∧
    test_video_stream (.response 200 []) = (false, some "No data received") ∧
    test_video_stream (.exception e) = (false, some e) := by
  refine ⟨?_, ?_, rfl, rfl, rfl⟩
  · intro h
    simp [test_video_stream, h]
  · intro h
    simp [test_video_stream, h]

/-- Witness for C4 at a 503 response and a 200 response with data. -/
theorem C4_witness :
    test_video_stream (.response 503 ["data"]) =
      (false, some ("HTTP " ++ toString 503)) ∧
    test_video_stream (.response 200 ["mpegts", "more"]) = (true, none) := by
  exact ⟨(C4_probe_classification 503 ["data"] "x" [] "e").1 (by decide),
         (C4_probe_classification 200 [] "mpegts" ["more"] "e").2.1 (by decide)⟩

/-- The duration-rendering block of `get_failure_duration`, applied to
`duration = now - first_failed` in whole seconds.  `days` mirrors
`timedelta.days` (floor of the total over 86400) and `duration % 86400`
mirrors `timedelta.seconds` (the nonnegative remainder); `/` and `%` on
`Int` are floor division and nonnegative remainder for these positive
divisors, exactly as Python's `//` and `%`. -/
def formatDuration (duration : Int) : String :=
  let days := duration / 86400
  let hours := duration % 86400 / 3600
  let minutes := duration % 86400 % 3600 / 60
  if days > 0 then
    if days = 1 then toString days ++ " day" else toString days ++ " days"
  else if hours > 0 then
    if hours = 1 then toString hours ++ " hour" else toString hours ++ " hours"
  else if minutes > 0 then
    if minutes = 1 then toString minutes ++ " minute" else toString minutes ++ " minutes"
  else "just now"

/-- Model of `ChannelsDVRServer.get_failure_duration`: `fromIso` stands for
`datetime.fromisoformat` and `now` for the current instant, both in
whole seconds since a common epoch; the source inlines the
`formatDuration` block. -/
def get_failure_duration (log : FailureLog) (fromIso : String → Int) (now : Int)
    (ch_number : String) : Option String :=
  match dictGet? log ch_number with
  | some r => some (formatDuration (now - fromIso r.first_failed))
  | none => none

/-- The rendering rule exactly as the specification words it (spec-side
definition for claim C5): the coarsest applicable unit, singular for a
count of exactly 1 and plural otherwise, else the literal "just now". -/
def durationWording (elapsed : Int) : String :=
  if 86400 ≤ elapsed then
    if elapsed / 86400 = 1 then "1 day" else toString (elapsed / 86400) ++ " days"
  else if 3600 ≤ elapsed then
    if elapsed / 3600 = 1 then "1 hour" else toString (elapsed / 3600) ++ " hours"
  else if 60 ≤ elapsed then
    if elapsed / 60 = 1 then "1 minute" else toString (elapsed / 60) ++ " minutes"
  else "just now"

lemma formatDuration_eq_wording (d : Int) (h : 0 ≤ d) :
    formatDuration d = durationWording d := by
  simp only [formatDuration, durationWording]
  by_cases h1 : 86400 ≤ d
  · have hdpos : 0 < d / 86400 := by omega
    rw [if_pos hdpos, if_pos h1]
    by_cases h2 : d / 86400 = 1
    · rw [if_pos h2, if_pos h2, h2]
      decide
    · rw [if_neg h2, if_neg h2]
  · have hdz : ¬(0 : Int) < d / 86400 := by omega
    have e1 : d % 86400 = d := by omega
    rw [if_neg hdz, if_neg h1, e1]
    by_cases h2 : 3600 ≤ d
    · have hhpos : 0 < d / 3600 := by omega
      rw [if_pos hhpos, if_pos h2]
      by_cases h3 : d / 3600 = 1
      · rw [if_pos h3, if_pos h3, h3]
        decide
      · rw [if_neg h3, if_neg h3]
    · have hhz : ¬(0 : Int) < d / 3600 := by omega
      have e2 : d % 3600 = d := by omega
      rw [if_neg hhz, if_neg h2, e2]
      by_cases h3 : 60 ≤ d
      · have hmpos : 0 < d / 60 := by omega
        rw [if_pos hmpos, if_pos h3]
        by_cases h4 : d / 60 = 1
        · rw [if_pos h4, if_pos h4, h4]
          decide
        · rw [if_neg h4, if_neg h4]
      · have hmz : ¬(0 : Int) < d / 60 := by omega
        rw [if_neg hmz, if_neg h3]

/-- Claim C5: `get_failure_duration` returns `none` without a record,
and otherwise renders `now - first_failed` at the coarsest applicable
unit with singular/plural agreement, falling back to "just now" below
one minute. -/
theorem C5_failure_duration (log : FailureLog) (fromIso : String → Int) (now : Int)
    (ch_number : String) :
    (dictGet? log ch_number = none →
      get_failure_duration log fromIso now ch_number = none) ∧
    (∀ r, dictGet? log ch_number = some r → 0 ≤ now - fromIso r.first_failed →
      get_failure_duration log fromIso now ch_number =
        some (durationWording (now - fromIso r.first_failed))) := by
  constructor
  · intro h
    simp [get_failure_duration, h]
  · intro r h hpos
    simp [get_failure_duration, h, formatDuration_eq_wording _ hpos]

/-- Witness for C5: exactly one day elapsed renders as the singular
"1 day", and an unknown channel yields no duration. -/
theorem C5_witness :
    get_failure_duration [("7", ⟨"Chan", "E", "E", some "x"⟩)] (fun _ => 0) 86400 "7" =
      some (durationWording 86400) ∧
    get_failure_duration [] (fun _ => 0) 86400 "7" = none ∧
    durationWording 86400 = "1 day" := by
  refine ⟨?_, ?_, by decide⟩
  · exact (C5_failure_duration [("7", ⟨"Chan", "E", "E", some "x"⟩)]
      (fun _ => 0) 86400 "7").2 ⟨"Chan", "E", "E", some "x"⟩ (by decide) (by decide)
  · exact (C5_failure_duration [] (fun _ => 0) 86400 "7").1 (by decide)

/-- The tuple returned by `test_channel` and consumed by the
`as_completed` result loop of `__main__`. -/
structure ProbeResult where
  number : String
  name : String
  success : Bool
  error : Option String
deriving DecidableEq

/-- The stream URL probed by `test_channel`. -/
def stream_url (ip_address port_number ch_number : String) : String :=
  "http://" ++ ip_address ++ ":" ++ port_number ++ "/devices/ANY/channels/" ++
    ch_number ++ "/stream.mpg"

/-- Model of `test_channel`: probe one channel's stream; `net` gives
the network behaviour at each URL. -/
def test_channel (ch_number ch_name ip_address port_number : String)
    (net : String → HttpOutcome) : ProbeResult :=
  let res := test_video_stream (net (stream_url ip_address port_number ch_number))
  { number := ch_number, name := ch_name, success := res.1, error := res.2 }

/-- The `as_completed` result loop of `__main__`: route each completed
probe into `passed_channels` or `failed_channels` (the per-channel
progress lines it prints are not modelled). -/
def collectLoop : List (String × String) × List (String × FailedData) →
    List ProbeResult → List (String × String) × List (String × FailedData)
  | acc, [] => acc
  | (passed, failed), r :: rest =>
      if r.success then collectLoop (dictSet passed r.number r.name, failed) rest
      else collectLoop (passed, dictSet failed r.number ⟨r.name, r.error⟩) rest

/-- The result maps after the whole loop, starting from the two empty
dicts of `__main__`. -/
def collectResults (results : List ProbeResult) :
    List (String × String) × List (String × FailedData) :=
  collectLoop ([], []) results

lemma dictKeys_set_fresh {α : Type} (m : List (String × α)) (k : String) (v : α)
    (h : k ∉ dictKeys m) : dictKeys (dictSet m k v) = dictKeys m ++ [k] := by
  induction m with
  | nil => simp [dictSet, dictKeys]
  | cons p rest ih =>
      simp only [dictKeys, List.map_cons, List.mem_cons, not_or] at h ⊢
      have hp : ¬p.1 = k := fun hh => h.1 hh.symm
      simp only [dictSet, if_neg hp, List.map_cons, List.cons_append, List.cons.injEq,
        true_and]
      exact ih h.2

/-- Key characterization of the result loop: with pairwise-distinct
incoming channel numbers that are fresh for both accumulators, the
passed keys extend by the successful probes in order and the failed
keys by the unsuccessful ones. -/
lemma collectLoop_keys (results : List ProbeResult)
    (passed : List (String × String)) (failed : List (String × FailedData))
    (hnd : (results.map ProbeResult.number).Nodup)
    (hp : ∀ r ∈ results, r.number ∉ dictKeys passed)
    (hf : ∀ r ∈ results, r.number ∉ dictKeys failed) :
    dictKeys (collectLoop (passed, failed) results).1 =
      dictKeys passed ++ (results.filter (fun r => r.success)).map ProbeResult.number ∧
    dictKeys (collectLoop (passed, failed) results).2 =
      dictKeys failed ++ (results.filter (fun r => !r.success)).map ProbeResult.number := by
  induction results generalizing passed failed with
  | nil => simp [collectLoop]
  | cons r rest ih =>
      simp only [List.map_cons, List.nodup_cons] at hnd
      have hpr : r.number ∉ dictKeys passed := hp r (List.mem_cons_self r rest)
      have hfr : r.number ∉ dictKeys failed := hf r (List.mem_cons_self r rest)
      have hrestnum : ∀ r' ∈ rest, r'.number ≠ r.number := by
        intro r' hr' he
        exact hnd.1 (he ▸ List.mem_map.mpr ⟨r', hr', rfl⟩)
      cases hs : r.success with
      | true =>
          have hstep : collectLoop (passed, failed) (r :: rest) =
              collectLoop (dictSet passed r.number r.name, failed) rest := by
            simp [collectLoop, hs]
          have hfresh : ∀ r' ∈ rest,
              r'.number ∉ dictKeys (dictSet passed r.number r.name) := by
            intro r' hr'
            rw [dictKeys_set_fresh passed r.number r.name hpr]
            simp only [List.mem_append, List.mem_singleton, not_or]
            exact ⟨hp r' (List.mem_cons_of_mem r hr'), hrestnum r' hr'⟩
          have ihh := ih (dictSet passed r.number r.name) failed hnd.2 hfresh
            (fun r' hr' => hf r' (List.mem_cons_of_mem r hr'))
          constructor
          · rw [hstep, ihh.1, dictKeys_set_fresh passed r.number r.name hpr]
            simp [List.filter_cons, hs]
          · rw [hstep, ihh.2]
            simp [List.filter_cons, hs]
      | false =>
          have hstep : collectLoop (passed, failed) (r :: rest) =
              collectLoop (passed, dictSet failed r.number ⟨r.name, r.error⟩) rest := by
            simp [collectLoop, hs]
          have hfresh : ∀ r' ∈ rest,
              r'.number ∉ dictKeys (dictSet failed r.number ⟨r.name, r.error⟩) := by
            intro r' hr'
            rw [dictKeys_set_fresh failed r.number _ hfr]
            simp only [List.mem_append, List.mem_singleton, not_or]
            exact ⟨hf r' (List.mem_cons_of_mem r hr'), hrestnum r' hr'⟩
          have ihh := ih passed (dictSet failed r.number ⟨r.name, r.error⟩) hnd.2
            (fun r' hr' => hp r' (List.mem_cons_of_mem r hr')) hfresh
          constructor
          · rw [hstep, ihh.1]
            simp [List.filter_cons, hs]
          · rw [hstep, ihh.2, dictKeys_set_fresh failed r.number _ hfr]
            simp [List.filter_cons, hs]

lemma length_filter_split (results : List ProbeResult) :
    (results.filter (fun r => r.success)).length +
      (results.filter (fun r => !r.success)).length = results.length := by
  induction results with
  | nil => rfl
  | cons r rest ih =>
      cases hs : r.success <;> simp [List.filter_cons, hs] <;> omega

/-- Claim C3: over any channel set with distinct numbers and any
completion order of the probes, the two result maps partition the
input: the lengths add up to the number of channels, the key sets are
disjoint, and every channel lands in exactly one map. -/
theorem C3_scan_partition (ip_address port_number : String)
    (net : String → HttpOutcome) (channels : List (String × String))
    (results : List ProbeResult)
    (hperm : results.Perm (channels.map
        (fun c => test_channel c.1 c.2 ip_address port_number net)))
    (hnd : (channels.map Prod.fst).Nodup) :
    (collectResults results).1.length + (collectResults results).2.length
        = channels.length ∧
    (∀ k, k ∈ dictKeys (collectResults results).1 →
        k ∉ dictKeys (collectResults results).2) ∧
    (∀ c ∈ channels,
        (c.1 ∈ dictKeys (collectResults results).1 ∧
         c.1 ∉ dictKeys (collectResults results).2) ∨
        (c.1 ∉ dictKeys (collectResults results).1 ∧
         c.1 ∈ dictKeys (collectResults results).2)) := by
  have hmapeq : (channels.map
      (fun c => test_channel c.1 c.2 ip_address port_number net)).map ProbeResult.number
      = channels.map Prod.fst := by
    rw [List.map_map]
    rfl
  have hnum : (results.map ProbeResult.number).Nodup :=
    ((hperm.map ProbeResult.number).nodup_iff).mpr (by rw [hmapeq]; exact hnd)
  have hlen : results.length = channels.length := by
    have := hperm.length_eq
    simpa using this
  obtain ⟨hkp, hkf⟩ := collectLoop_keys results [] [] hnum
    (by intro r hr; simp [dictKeys]) (by intro r hr; simp [dictKeys])
  have hkp' : dictKeys (collectResults results).1 =
      (results.filter (fun r => r.success)).map ProbeResult.number := by
    rw [collectResults, hkp]
    rfl
  have hkf' : dictKeys (collectResults results).2 =
      (results.filter (fun r => !r.success)).map ProbeResult.number := by
    rw [collectResults, hkf]
    rfl
  have hinj := List.inj_on_of_nodup_map hnum
  have hdisj : ∀ k, k ∈ dictKeys (collectResults results).1 →
      k ∉ dictKeys (collectResults results).2 := by
    intro k h1 h2
    rw [hkp'] at h1
    rw [hkf'] at h2
    obtain ⟨r1, hr1, he1⟩ := List.mem_map.mp h1
    obtain ⟨r2, hr2, he2⟩ := List.mem_map.mp h2
    obtain ⟨hr1m, hr1s⟩ := List.mem_filter.mp hr1
    obtain ⟨hr2m, hr2s⟩ := List.mem_filter.mp hr2
    have he : r1 = r2 := hinj hr1m hr2m (by rw [he1, he2])
    subst he
    rw [hr1s] at hr2s
    cases hr2s
  refine ⟨?_, hdisj, ?_⟩
  · have e1 : (collectResults results).1.length =
        (results.filter (fun r => r.success)).length := by
      have := congrArg List.length hkp'
      simpa [dictKeys] using this
    have e2 : (collectResults results).2.length =
        (results.filter (fun r => !r.success)).length := by
      have := congrArg List.length hkf'
      simpa [dictKeys] using this
    rw [e1, e2, length_filter_split, hlen]
  · intro c hc
    have hr : test_channel c.1 c.2 ip_address port_number net ∈ results :=
      hperm.mem_iff.mpr (List.mem_map.mpr ⟨c, hc, rfl⟩)
    set r := test_channel c.1 c.2 ip_address port_number net with hrdef
    have hrn : r.number = c.1 := rfl
    cases hs : r.success with
    | true =>
        left
        have h1 : c.1 ∈ dictKeys (collectResults results).1 := by
          rw [hkp']
          exact List.mem_map.mpr ⟨r, List.mem_filter.mpr ⟨hr, by rw [hs]⟩, hrn⟩
        exact ⟨h1, hdisj c.1 h1⟩
    | false =>
        right
        have h2 : c.1 ∈ dictKeys (collectResults results).2 := by
          rw [hkf']
          exact List.mem_map.mpr ⟨r, List.mem_filter.mpr ⟨hr, by rw [hs]; rfl⟩, hrn⟩
        refine ⟨fun h1 => hdisj c.1 h1 h2, h2⟩

/-- Network behaviour for the C3 witness: channel 1 streams data,
every other URL answers 503. -/
def demoNet : String → HttpOutcome := fun url =>
  if url = "http://127.0.0.1:8089/devices/ANY/channels/1/stream.mpg" then
    .response 200 ["x"]
  else .response 503 []

/-- The probe results of the C3 witness scan, in submission order. -/
def demoResults : List ProbeResult :=
  [("1", "A"), ("2", "B")].map (fun c => test_channel c.1 c.2 "127.0.0.1" "8089" demoNet)

/-- Witness for C3 on a two-channel scan with one pass and one failure. -/
theorem C3_witness :
    (collectResults demoResults).1.length + (collectResults demoResults).2.length = 2 ∧
    "1" ∈ dictKeys (collectResults demoResults).1 ∧
    "2" ∈ dictKeys (collectResults demoResults).2 ∧
    "2" ∉ dictKeys (collectResults demoResults).1 := by
  have h := C3_scan_partition "127.0.0.1" "8089" demoNet [("1", "A"), ("2", "B")]
      demoResults (List.Perm.refl _) (by decide)
  refine ⟨by simpa using h.1, ?_, ?_, ?_⟩
  · rcases h.2.2 ("1", "A") (by decide) with hc | hc
    · exact hc.1
    · exact absurd hc.2 (by decide)
  · rcases h.2.2 ("2", "B") (by decide) with hc | hc
    · exact absurd hc.1 (by decide)
    · exact hc.2
  · rcases h.2.2 ("2", "B") (by decide) with hc | hc
    · exact absurd hc.1 (by decide)
    · exact hc.1

/-- One scan pass as fed to `update_failure_log`: its timestamp and its
failed/passed result maps. -/
structure ScanPass where
  time : String
  failed : List (String × FailedData)
  passed : List (String × String)

/-- The ledger after a chronological sequence of scan passes, each
applied by `update_failure_log`. -/
def runPasses : FailureLog → List ScanPass → FailureLog
  | log, [] => log
  | log, p :: rest => runPasses (update_failure_log log p.time p.failed p.passed) rest

/-- The outcome of the most recent probe of channel `k` in a pass
history (`some false` = failed most recently, `some true` = passed most
recently, `none` = never probed); later passes take precedence. -/
def lastOutcome : List ScanPass → String → Option Bool
  | [], _ => none
  | p :: rest, k =>
      match lastOutcome rest k with
      | some b => some b
      | none =>
          if k ∈ p.failed.map Prod.fst then some false
          else if k ∈ p.passed.map Prod.fst then some true
          else none

/-- The add/update loop never deletes a binding. -/
lemma updateFailedChannels_ne_none_of (failed : List (String × FailedData))
    (log : FailureLog) (now k : String)
    (h : dictGet? log k ≠ none) :
    dictGet? (updateFailedChannels log now failed) k ≠ none := by
  induction failed generalizing log with
  | nil => exact h
  | cons ch rest ih =>
      have hstep : ∀ v : FailureRecord, dictGet? (dictSet log ch.1 v) k ≠ none := by
        intro v
        by_cases hc : ch.1 = k
        · rw [hc, dictGet?_set_self]
          exact Option.some_ne_none v
        · rw [dictGet?_set_ne _ _ _ _ hc]
          exact h
      cases hcc : dictGet? log ch.1 with
      | none =>
          simp only [updateFailedChannels, hcc]
          exact ih _ (hstep _)
      | some r =>
          simp only [updateFailedChannels, hcc]
          exact ih _ (hstep _)

/-- Every channel named in the failed map has a binding after the
add/update loop. -/
lemma updateFailedChannels_ne_none_mem (failed : List (String × FailedData))
    (log : FailureLog) (now k : String)
    (h : k ∈ failed.map Prod.fst) :
    dictGet? (updateFailedChannels log now failed) k ≠ none := by
  induction failed generalizing log with
  | nil => cases h
  | cons ch rest ih =>
      by_cases hc : k ∈ rest.map Prod.fst
      · cases hcc : dictGet? log ch.1 with
        | none =>
            simp only [updateFailedChannels, hcc]
            exact ih _ hc
        | some r =>
            simp only [updateFailedChannels, hcc]
            exact ih _ hc
      · have hck : ch.1 = k := by
          simp only [List.map_cons, List.mem_cons] at h
          tauto
        subst hck
        cases hcc : dictGet? log ch.1 with
        | none =>
            simp only [updateFailedChannels, hcc]
            exact updateFailedChannels_ne_none_of rest _ now ch.1
              (by rw [dictGet?_set_self]; exact Option.some_ne_none _)
        | some r =>
            simp only [updateFailedChannels, hcc]
            exact updateFailedChannels_ne_none_of rest _ now ch.1
              (by rw [dictGet?_set_self]; exact Option.some_ne_none _)

/-- Claim C2: starting from an empty ledger, after any chronological
sequence of well-formed scan passes a record exists for a channel
number exactly when that channel's most recent probe failed; in
particular a record disappears the moment a probe succeeds, and no
record exists for channels whose most recent probe passed or that were
never probed. -/
theorem C2_ledger_invariant (passes : List ScanPass)
    (hwf : ∀ p ∈ passes, ∀ k ∈ p.failed.map Prod.fst, k ∉ p.passed.map Prod.fst)
    (k : String) :
    dictGet? (runPasses [] passes) k ≠ none ↔ lastOutcome passes k = some false := by
  suffices h : ∀ log : FailureLog,
      (dictGet? (runPasses log passes) k ≠ none ↔
        (lastOutcome passes k = some false ∨
          (lastOutcome passes k = none ∧ dictGet? log k ≠ none))) by
    rw [h []]
    simp [dictGet?]
  induction passes with
  | nil =>
      intro log
      simp [runPasses, lastOutcome]
  | cons p rest ih =>
      intro log
      have hwfp := hwf p (List.mem_cons_self p rest)
      have hwfrest : ∀ q ∈ rest, ∀ k ∈ q.failed.map Prod.fst,
          k ∉ q.passed.map Prod.fst :=
        fun q hq => hwf q (List.mem_cons_of_mem p hq)
      have step := ih hwfrest (update_failure_log log p.time p.failed p.passed)
      rw [show runPasses log (p :: rest) =
            runPasses (update_failure_log log p.time p.failed p.passed) rest from rfl,
          step]
      cases hrest : lastOutcome rest k with
      | some b =>
          simp only [lastOutcome, hrest]
          constructor
          · rintro (hb | ⟨hcon, -⟩)
            · exact Or.inl hb
            · cases hcon
          · rintro (hb | ⟨hcon, -⟩)
            · exact Or.inl hb
            · cases hcon
      | none =>
          simp only [lastOutcome, hrest, true_and, false_or]
          by_cases hfm : k ∈ p.failed.map Prod.fst
          · rw [if_pos hfm]
            have hne : dictGet? (update_failure_log log p.time p.failed p.passed) k ≠
                none := by
              rw [update_failure_log,
                  removePassedChannels_get_notMem _ _ _ (hwfp k hfm)]
              exact updateFailedChannels_ne_none_mem p.failed log p.time k hfm
            simp [hne]
          · rw [if_neg hfm]
            by_cases hpm : k ∈ p.passed.map Prod.fst
            · rw [if_pos hpm]
              have hno : dictGet? (update_failure_log log p.time p.failed p.passed) k =
                  none := by
                rw [update_failure_log]
                exact removePassedChannels_get_mem p.passed _ k hpm
              simp [hno]
            · rw [if_neg hpm]
              have hfr : dictGet? (update_failure_log log p.time p.failed p.passed) k =
                  dictGet? log k := by
                rw [update_failure_log, removePassedChannels_get_notMem _ _ _ hpm,
                    updateFailedChannels_get_notMem _ _ _ _ hfm]
              rw [hfr]
              simp

/-- Witness for C2: a channel that fails in pass one and passes in pass
two is absent afterwards, and its most recent probe did not fail. -/
theorem C2_witness :
    (dictGet? (runPasses []
        [⟨"T1", [("5", ⟨"E", some "HTTP 503"⟩)], []⟩,
         ⟨"T2", [], [("5", "E")]⟩]) "5" ≠ none ↔
      lastOutcome
        [⟨"T1", [("5", ⟨"E", some "HTTP 503"⟩)], []⟩,
         ⟨"T2", [], [("5", "E")]⟩] "5" = some false) ∧
    dictGet? (runPasses []
        [⟨"T1", [("5", ⟨"E", some "HTTP 503"⟩)], []⟩,
         ⟨"T2", [], [("5", "E")]⟩]) "5" = none := by
  constructor
  · exact C2_ledger_invariant
      [⟨"T1", [("5", ⟨"E", some "HTTP 503"⟩)], []⟩, ⟨"T2", [], [("5", "E")]⟩]
      (by decide) "5"
  · decide

/-- The mail-related CLI arguments; `none` when a flag is absent
(argparse gives `--smtp-port` the default 587). -/
structure MailArgs where
  smtp_server : Option String
  smtp_port : Option Nat
  sender_email : Option String
  sender_password : Option String
  recipient_email : Option String

/-- Python truthiness of an optional string argument (absent and empty
are both falsy). -/
def pyTruthy : Option String → Bool
  | none => false
  | some s => !s.isEmpty

/-- The resolved configuration stored by `set_email_config`. -/
structure EmailConfig where
  smtp_server : String
  smtp_port : Nat
  sender_email : String
  sender_password : String
  recipient_email : String
deriving DecidableEq

/-- The email-configuration block of `__main__`: `all([...])` over the
four credential arguments enables notifications, otherwise `any([...])`
over the same four prints the incomplete-configuration warning;
`--smtp-port` is defaulted and appears in neither check. -/
def configureEmail (args : MailArgs) : Option EmailConfig × List String :=
  if pyTruthy args.smtp_server && pyTruthy args.sender_email &&
      pyTruthy args.sender_password && pyTruthy args.recipient_email then
    (some { smtp_server := args.smtp_server.getD "",
            smtp_port := args.smtp_port.getD 587,
            sender_email := args.sender_email.getD "",
            sender_password := args.sender_password.getD "",
            recipient_email := args.recipient_email.getD "" },
     ["Email notifications enabled."])
  else if pyTruthy args.smtp_server || pyTruthy args.sender_email ||
      pyTruthy args.sender_password || pyTruthy args.recipient_email then
    (none,
     ["Warning: Incomplete email configuration. All email parameters required. Email notifications disabled."])
  else (none, [])

/-- The observable outcome of the `__main__` scan flow from the point
where the channel list has been fetched. -/
structure ScanOutcome where
  exitedEarly : Option Nat
  printed : List String
  finalLog : Option FailureLog
  written : Option JValue
  emailSent : Bool

/-- The `__main__` flow after the channel fetch: an empty channel dict
prints the diagnostic and calls the bare `sys.exit()` (process status
0) before any ledger activity; otherwise every channel is probed, the
results are partitioned, the ledger is updated and persisted, and the
results email goes out only when email is configured and failures
exist.  Progress output is not modelled. -/
def runScan (ip_address port_number : String) (emailConfigured : Bool)
    (log : FailureLog) (current_time : String)
    (tve_channels : List (String × String)) (net : String → HttpOutcome) :
    ScanOutcome :=
  if tve_channels.isEmpty then
    { exitedEarly := some 0,
      printed := ["No TVE channels received from the Channels DVR server at http://"
        ++ ip_address ++ ":" ++ port_number ++ "!"],
      finalLog := none, written := none, emailSent := false }
  else
    let results := tve_channels.map
      (fun c => test_channel c.1 c.2 ip_address port_number net)
    let pf := collectResults results
    let io := update_failure_log_io log current_time pf.2 pf.1 none
    { exitedEarly := none, printed := [],
      finalLog := some io.1, written := io.2.1,
      emailSent := emailConfigured && !pf.2.isEmpty }

/-- Counterexample to claim C8 as stated: with zero channels the
process does terminate immediately, but through a bare `sys.exit()`,
whose outcome is exit status 0 — not a non-zero-equivalent outcome. -/
theorem C8_counterexample :
    (runScan "127.0.0.1" "8089" false [] "T" [] (fun _ => .response 503 [])).exitedEarly
      = some 0 := rfl

/-- Claim C8 (amended): when the channel source returns zero channels
the process terminates immediately with a printed diagnostic and exit
status zero (bare `sys.exit()`), and no ledger write occurs before
termination. -/
theorem C8_empty_channels (ip_address port_number : String) (emailConfigured : Bool)
    (log : FailureLog) (current_time : String) (net : String → HttpOutcome) :
    runScan ip_address port_number emailConfigured log current_time [] net =
      { exitedEarly := some 0,
        printed := ["No TVE channels received from the Channels DVR server at http://"
          ++ ip_address ++ ":" ++ port_number ++ "!"],
        finalLog := none, written := none, emailSent := false } := rfl

/-- Counterexample to claim C9 as stated: providing only `--smtp-port`
— a nonempty proper subset of the five mail-config fields — prints no
warning at all (the port is not part of the all/any checks), while the
claim requires a warning for every proper subset. -/
theorem C9_counterexample :
    configureEmail ⟨none, some 9999, none, none, none⟩ = (none, []) := rfl

/-- Claim C9 (amended): the all-or-nothing rule covers the four
credential fields (server, sender email, password, recipient) — the
port has a default and is not checked: notifications are enabled
exactly when all four are truthy, the incomplete-configuration warning
is printed exactly when some but not all of the four are truthy, and
with a nonempty channel list the scan completes with the ledger updated
and persisted whether or not email is configured. -/
theorem C9_mail_config (args : MailArgs) (ip_address port_number : String)
    (log : FailureLog) (current_time : String) (c : String × String)
    (rest : List (String × String)) (net : String → HttpOutcome)
    (emailConfigured : Bool) :
    ((configureEmail args).1.isSome =
      (pyTruthy args.smtp_server && pyTruthy args.sender_email &&
        pyTruthy args.sender_password && pyTruthy args.recipient_email)) ∧
    ((configureEmail args).2 =
        ["Warning: Incomplete email configuration. All email parameters required. Email notifications disabled."] ↔
      ((pyTruthy args.smtp_server || pyTruthy args.sender_email ||
        pyTruthy args.sender_password || pyTruthy args.recipient_email) = true ∧
       (pyTruthy args.smtp_server && pyTruthy args.sender_email &&
        pyTruthy args.sender_password && pyTruthy args.recipient_email) = false)) ∧
    (runScan ip_address port_number emailConfigured log current_time (c :: rest) net).exitedEarly
        = none ∧
    (runScan ip_address port_number emailConfigured log current_time (c :: rest) net).written
        = some (logToJson (update_failure_log log current_time
            (collectResults ((c :: rest).map
              (fun ch => test_channel ch.1 ch.2 ip_address port_number net))).2
            (collectResults ((c :: rest).map
              (fun ch => test_channel ch.1 ch.2 ip_address port_number net))).1)) := by
  refine ⟨?_, ?_, ?_, ?_⟩
  · by_cases h1 : (pyTruthy args.smtp_server && pyTruthy args.sender_email &&
        pyTruthy args.sender_password && pyTruthy args.recipient_email) = true
    · simp [configureEmail, h1]
    · by_cases h2 : (pyTruthy args.smtp_server || pyTruthy args.sender_email ||
          pyTruthy args.sender_password || pyTruthy args.recipient_email) = true
      · simp [configureEmail, h1, h2]
      · simp [configureEmail, h1, h2]
  · by_cases h1 : (pyTruthy args.smtp_server && pyTruthy args.sender_email &&
        pyTruthy args.sender_password && pyTruthy args.recipient_email) = true
    · simp only [configureEmail, h1, if_pos]
      constructor
      · intro hcon
        exact absurd hcon (by decide)
      · rintro ⟨-, hfalse⟩
        exact Bool.noConfusion hfalse
    · by_cases h2 : (pyTruthy args.smtp_server || pyTruthy args.sender_email ||
          pyTruthy args.sender_password || pyTruthy args.recipient_email) = true
      · simp [configureEmail, h1, h2]
      · simp [configureEmail, h1, h2]
  · simp [runScan]
  · simp [runScan, update_failure_log_io, save_failure_log]

end TveChecker
